import Mathlib

/-!
Verification of the numo-arb strategy core (crates/strategies/numo-arb).

Shallow embedding conventions:
* Rust u128 / u32 / U256 values are Lean naturals; wrapping or saturating
  arithmetic is written out explicitly (modulo 2 ^ 128, min with the type
  maximum) exactly where the Rust operation wraps or saturates.
* Operations of the ethers U256 type that panic on overflow (multiplication,
  the as_u32 conversion) are embedded as Option / a distinct panic error value.
* Rust f64 arithmetic of the SOFR-curve module is idealized as exact rational
  arithmetic over the same formulas.
* Fallible on-chain reads (contract preview calls) are oracle functions
  returning Except Unit; the live re-query of the rich pool's marginal price
  inside the bisection solver is an oracle indexed by the query number.
-/

/-- Largest value of the Rust u128 type. -/
def U128_MAX : ℕ := 2 ^ 128 - 1

/-- Size of the u128 value space, for wrapping arithmetic. -/
def U128_SIZE : ℕ := 2 ^ 128

/-- Size of the ethers U256 value space. -/
def U256_SIZE : ℕ := 2 ^ 256

/-- Wrapping subtraction of u128 values (release-mode Rust semantics of the
plain subtraction operator on u128). Both arguments are assumed below the
u128 size. -/
def u128_wrapping_sub (a b : ℕ) : ℕ := (a + U128_SIZE - b) % U128_SIZE

/-- Embedding of apply_slippage from pricing.rs. The intermediate product
amount * slippage_bps is computed in u128 and therefore wraps modulo 2 ^ 128;
the final addition saturates at the u128 maximum (saturating_add) and the
final subtraction saturates at zero (saturating_sub, which ℕ subtraction
already does). -/
def apply_slippage (amount : ℕ) (slippage_bps : ℕ) (is_max_in : Bool) : ℕ :=
  let adjustment := amount * slippage_bps % U128_SIZE / 10000
  if is_max_in then min (amount + adjustment) U128_MAX
  else amount - adjustment

/-- Idealized (unbounded) slippage adjustment: what apply_slippage computes
whenever the intermediate product fits in u128. Used to state the saturation
property. -/
def apply_slippage_exact (amount : ℕ) (slippage_bps : ℕ) (is_max_in : Bool) : ℕ :=
  let adjustment := amount * slippage_bps / 10000
  if is_max_in then min (amount + adjustment) U128_MAX
  else amount - adjustment

/-- Embedding of price_divergence_bps from pricing.rs. The ethers U256
multiplication diff * 10000 panics on overflow, and the final as_u32
conversion panics when the divergence does not fit in u32; both panics are
embedded as none. -/
def price_divergence_bps (pool_price target_price : ℕ) : Option ℕ :=
  if target_price = 0 then some 0
  else
    let diff := if target_price < pool_price then pool_price - target_price
      else target_price - pool_price
    if U256_SIZE ≤ diff * 10000 then none
    else
      let divergence := diff * 10000 / target_price
      if 2 ^ 32 ≤ divergence then none
      else some divergence

/-- Embedding of meets_edge_threshold from pricing.rs (none = panic inside
price_divergence_bps). -/
def meets_edge_threshold (pool_price target_price edge_bps : ℕ) : Option Bool :=
  (price_divergence_bps pool_price target_price).map (fun d => edge_bps ≤ d)

/-- The fixed probe size PRICE_PROBE_AMOUNT from pricing.rs. -/
def PRICE_PROBE_AMOUNT : ℕ := 1000000000000000

/-- Iteration cap MAX_BISECTION_ITERATIONS from pricing.rs. -/
def MAX_BISECTION_ITERATIONS : ℕ := 25

/-- Loop body of solve_fy_amount_to_target from pricing.rs. fuel is the
number of remaining iterations of the for 0..25 loop, iter the index of the
next marginal-price query, and lo, hi, best the mutable loop state. The mid
computation is exact: Rust performs it in U256 and converts back, and
(lo + hi) / 2 always fits in u128. The convergence check hi - lo < 1000 uses
wrapping u128 subtraction. -/
def solve_loop (price : ℕ → Except Unit ℕ) (target_price_1e18 : ℕ) :
    ℕ → ℕ → ℕ → ℕ → ℕ → Except Unit ℕ
  | 0, _, _, _, best => .ok best
  | fuel + 1, iter, lo, hi, best =>
    if hi ≤ lo then .ok best
    else
      let mid := (lo + hi) / 2
      if mid = 0 then .ok best
      else
        match price iter with
        | .error e => .error e
        | .ok current_price =>
          if target_price_1e18 < current_price then
            let lo2 := min (mid + 1) U128_MAX
            if u128_wrapping_sub hi lo2 < 1000 then .ok mid
            else solve_loop price target_price_1e18 fuel (iter + 1) lo2 hi mid
          else
            let hi2 := mid - 1
            if u128_wrapping_sub hi2 lo < 1000 then .ok best
            else solve_loop price target_price_1e18 fuel (iter + 1) lo hi2 best

/-- Embedding of solve_fy_amount_to_target from pricing.rs. The price oracle
gives the result of the i-th marginal-price query on the rich pool (the Rust
code re-queries the live pool each iteration); a query failure propagates as
an error, as the question-mark operator does. -/
def solve_fy_amount_to_target (price : ℕ → Except Unit ℕ)
    (target_price_1e18 max_fy_amount : ℕ) : Except Unit (Option ℕ) :=
  match solve_loop price target_price_1e18 MAX_BISECTION_ITERATIONS 0 0 max_fy_amount 0 with
  | .error e => .error e
  | .ok best => if best = 0 then .ok none else .ok (some best)

/-- Day count convention from sofr.rs. -/
inductive DayCount
  | act360
  | act365
deriving DecidableEq

/-- Embedding of DayCount::year_fraction_from_seconds from sofr.rs (f64
arithmetic idealized over ℚ). -/
def DayCount.year_fraction_from_seconds : DayCount → ℚ → ℚ
  | .act360, seconds => seconds / 86400 / 360
  | .act365, seconds => seconds / 86400 / 365

/-- A knot point of the SOFR curve (sofr.rs). -/
structure CurveKnot where
  t : ℚ
  rate : ℚ

/-- The SOFR discount-factor curve (sofr.rs). -/
structure SofrCurve where
  knots : List CurveKnot
  day_count : DayCount

/-- Loop of SofrCurve::interpolate_rate for the interior case: prev is
knots[i-1], the list argument the remaining knots, and the branch taken when
t ≤ knots[i].t is the linear interpolation between the bracketing knots. The
empty case is the unreachable fall-through returning the last rate. -/
def interpolate_rate_aux (prev : CurveKnot) : List CurveKnot → ℚ → ℚ
  | [], _ => prev.rate
  | k :: ks, t =>
    if t ≤ k.t then prev.rate + (t - prev.t) / (k.t - prev.t) * (k.rate - prev.rate)
    else interpolate_rate_aux k ks t

/-- Embedding of SofrCurve::interpolate_rate from sofr.rs: rate 0 for an
empty curve, flat extrapolation outside the knot range, piecewise-linear
interpolation inside. -/
def interpolate_rate (c : SofrCurve) (t : ℚ) : ℚ :=
  match c.knots with
  | [] => 0
  | k0 :: ks =>
    if t ≤ k0.t then k0.rate
    else if (ks.getLastD k0).t ≤ t then (ks.getLastD k0).rate
    else interpolate_rate_aux k0 ks t

/-- Embedding of SofrCurve::rate from sofr.rs (alias for interpolate_rate). -/
def SofrCurve.rate (c : SofrCurve) (t : ℚ) : ℚ := interpolate_rate c t

/-- Embedding of SofrCurve::discount_factor from sofr.rs:
1 for t ≤ 0, otherwise 1 / (1 + r(t) * t). -/
def discount_factor (c : SofrCurve) (t : ℚ) : ℚ :=
  if t ≤ 0 then 1
  else 1 / (1 + interpolate_rate c t * t)

/-- Embedding of SofrCurve::time_to_maturity from sofr.rs: seconds to
maturity clamped at zero, converted to a year fraction. -/
def time_to_maturity (c : SofrCurve) (current_ts maturity : ℕ) : ℚ :=
  c.day_count.year_fraction_from_seconds (((maturity : ℤ) - (current_ts : ℤ)) ⊔ 0 : ℤ)

/-- Models the Rust cast (x * 1e18) as u128 used for the target price in
strategy.rs: truncation toward zero, saturating at the u128 bounds. -/
def to_u128_scaled_1e18 (x : ℚ) : ℕ := min (⌊x * 10 ^ 18⌋.toNat) U128_MAX

/-- Pool state snapshot from pricing.rs. -/
structure PoolState where
  address : ℕ
  base_reserves : ℕ
  fy_reserves : ℕ
  fee_bps : ℕ
  maturity : ℕ
deriving DecidableEq

/-- Strategy configuration from types.rs (the router address is irrelevant
to the verified core and omitted). -/
structure Config where
  pool_addresses : List ℕ
  edge_bps : ℕ
  slippage_bps : ℕ
  max_fy_amount : ℕ
  max_base_amount : ℕ
  bid_percentage : ℕ

/-- Arbitrage opportunity from types.rs. -/
structure ArbOpportunity where
  cheap_pool : ℕ
  rich_pool : ℕ
  fy_amount : ℕ
  max_base_in : ℕ
  min_base_out : ℕ
  expected_profit : ℕ
  target_price : ℕ
  cheap_price : ℕ
  rich_price : ℕ
deriving DecidableEq

/-- Oracle for the fallible on-chain reads consumed by one evaluation cycle.
The first three fields are the preview calls of the NumoEnginePool contract
(argument order: pool address, token amount); solver_price gives the result
of the i-th live marginal-price query made by the bisection solver on the
rich pool; get_pool_state is the state read used by sync_state. -/
structure Chain where
  sell_base_preview : ℕ → ℕ → Except Unit ℕ
  sell_fy_token_preview : ℕ → ℕ → Except Unit ℕ
  buy_fy_token_preview : ℕ → ℕ → Except Unit ℕ
  solver_price : ℕ → Except Unit ℕ
  get_pool_state : ℕ → Except Unit PoolState

/-- Embedding of marginal_price_base_per_fy from pricing.rs. All U256
arithmetic here is exact over ℕ: the probe is 10 ^ 15, previews return u128
values, and the largest intermediate product is below 2 ^ 256. -/
def marginal_price_base_per_fy (c : Chain) (pool : ℕ) : Except Unit ℕ :=
  match c.sell_base_preview pool PRICE_PROBE_AMOUNT with
  | .error e => .error e
  | .ok fy_out_raw =>
    let fy_out := max fy_out_raw 1
    let price1 := PRICE_PROBE_AMOUNT * 10 ^ 18 / fy_out
    match c.sell_fy_token_preview pool PRICE_PROBE_AMOUNT with
    | .error e => .error e
    | .ok base_out_raw =>
      let base_out := max base_out_raw 1
      let price2 := base_out * 10 ^ 18 / PRICE_PROBE_AMOUNT
      .ok ((price1 + price2) / 2)

/-- Error outcomes of one evaluation cycle: a transient read error
(propagated by the question-mark operator in find_best_opportunity) or a
Rust panic (U256 overflow / as_u32 overflow inside the edge check). -/
inductive RunError
  | transient
  | panicked
deriving DecidableEq

/-- The pool-pricing loop of find_best_opportunity (strategy.rs lines
77-91): for each configured pool, query the marginal price; on failure the
pool is skipped (logged, not fatal); a priced pool is kept only if the state
cache has an entry for it, and carries its time to maturity. -/
def pool_prices_loop (c : Chain) (curve : SofrCurve)
    (states : List (ℕ × PoolState)) (current_ts : ℕ) :
    List ℕ → List (ℕ × ℕ × ℚ)
  | [] => []
  | addr :: rest =>
    match marginal_price_base_per_fy c addr with
    | .ok price =>
      match states.lookup addr with
      | some st =>
        (addr, price, time_to_maturity curve current_ts st.maturity) ::
          pool_prices_loop c curve states current_ts rest
      | none => pool_prices_loop c curve states current_ts rest
    | .error _ => pool_prices_loop c curve states current_ts rest

/-- Fold computing the index of the Rust min_by_key over the price
component: the current best index and best price are replaced only by a
strictly smaller price, so the first minimal element wins. -/
def min_price_idx_aux : List (ℕ × ℕ × ℚ) → ℕ → ℕ → ℕ → ℕ
  | [], _, best_i, _ => best_i
  | e :: rest, i, best_i, best_p =>
    if e.2.1 < best_p then min_price_idx_aux rest (i + 1) i e.2.1
    else min_price_idx_aux rest (i + 1) best_i best_p

/-- Index selected by min_by_key on the price component (strategy.rs lines
100-108): the first pool with minimal price. -/
def min_price_idx : List (ℕ × ℕ × ℚ) → Option ℕ
  | [] => none
  | e :: rest => some (min_price_idx_aux rest 1 0 e.2.1)

/-- Fold computing the index of the Rust max_by_key over the price
component: the current best is replaced by any price at least as large, so
the last maximal element wins. -/
def max_price_idx_aux : List (ℕ × ℕ × ℚ) → ℕ → ℕ → ℕ → ℕ
  | [], _, best_i, _ => best_i
  | e :: rest, i, best_i, best_p =>
    if best_p ≤ e.2.1 then max_price_idx_aux rest (i + 1) i e.2.1
    else max_price_idx_aux rest (i + 1) best_i best_p

/-- Index selected by max_by_key on the price component (strategy.rs lines
110-118): the last pool with maximal price. -/
def max_price_idx : List (ℕ × ℕ × ℚ) → Option ℕ
  | [] => none
  | e :: rest => some (max_price_idx_aux rest 1 0 e.2.1)

/-- Tail of find_best_opportunity after the cheap and rich pools and the
target price are fixed (strategy.rs lines 141-206): edge-threshold gate,
trade sizing on the rich pool, cost and proceeds previews, raw profit,
slippage adjustment, position limit, and the final best-opportunity
selection against the initial max_profit = 0. -/
def scan_pair (c : Chain) (cfg : Config)
    (cheap_addr cheap_price rich_addr rich_price target_price : ℕ) :
    Except RunError (Option ArbOpportunity) :=
  match meets_edge_threshold rich_price target_price cfg.edge_bps with
  | none => .error .panicked
  | some false => .ok none
  | some true =>
    match solve_fy_amount_to_target c.solver_price target_price cfg.max_fy_amount with
    | .error _ => .error .transient
    | .ok none => .ok none
    | .ok (some fy_amount) =>
      if fy_amount = 0 then .ok none
      else
        match c.buy_fy_token_preview cheap_addr fy_amount with
        | .error _ => .error .transient
        | .ok max_base_in =>
          match c.sell_fy_token_preview rich_addr fy_amount with
          | .error _ => .error .transient
          | .ok min_base_out =>
            if min_base_out ≤ max_base_in then .ok none
            else
              let expected_profit := min_base_out - max_base_in
              let max_base_in_slip := apply_slippage max_base_in cfg.slippage_bps true
              let min_base_out_slip := apply_slippage min_base_out cfg.slippage_bps false
              if cfg.max_base_amount < max_base_in_slip then .ok none
              else
                let opp : ArbOpportunity :=
                  ⟨cheap_addr, rich_addr, fy_amount, max_base_in_slip, min_base_out_slip,
                    expected_profit, target_price, cheap_price, rich_price⟩
                if 0 < expected_profit then .ok (some opp) else .ok none

/-- Selection step of find_best_opportunity (strategy.rs lines 96-129):
empty priced list reports nothing, cheap and rich indices are chosen by
min_by_key and max_by_key, coinciding indices report nothing, and the target
price is the discount factor at the rich pool's time to maturity scaled to
10 ^ 18. -/
def find_from_prices (c : Chain) (cfg : Config) (curve : SofrCurve)
    (pp : List (ℕ × ℕ × ℚ)) : Except RunError (Option ArbOpportunity) :=
  match pp with
  | [] => .ok none
  | _ :: _ =>
    match min_price_idx pp, max_price_idx pp with
    | some cheap_idx, some rich_idx =>
      if cheap_idx = rich_idx then .ok none
      else
        let cheap := pp.getD cheap_idx ⟨0, 0, 0⟩
        let rich := pp.getD rich_idx ⟨0, 0, 0⟩
        scan_pair c cfg cheap.1 cheap.2.1 rich.1 rich.2.1
          (to_u128_scaled_1e18 (discount_factor curve rich.2.2))
    | _, _ => .ok none

/-- Embedding of NumoArb::find_best_opportunity from strategy.rs: fewer than
two cached pool states report nothing; otherwise price every configured
pool (skipping failures) and scan the cheap/rich extremal pair. -/
def find_best_opportunity (c : Chain) (cfg : Config) (curve : SofrCurve)
    (states : List (ℕ × PoolState)) (current_ts : ℕ) :
    Except RunError (Option ArbOpportunity) :=
  if states.length < 2 then .ok none
  else find_from_prices c cfg curve
    (pool_prices_loop c curve states current_ts cfg.pool_addresses)

/-- Gas bid information attached to an emitted action (types.rs re-export). -/
structure GasBidInfo where
  total_profit : ℕ
  bid_percentage : ℕ
deriving DecidableEq

/-- Action emitted by the strategy (types.rs); the transaction payload is
abstracted to the opportunity it was built from. -/
inductive ArbAction
  | submit_tx (opp : ArbOpportunity) (gas_bid : GasBidInfo)
deriving DecidableEq

/-- Embedding of NumoArb::execute_arbitrage from strategy.rs: always emits
one submit-tx action whose gas bid carries the expected profit and the
configured bid percentage (a gas-estimate failure is absorbed by
unwrap_or, so the function never fails). -/
def execute_arbitrage (cfg : Config) (opp : ArbOpportunity) : Option ArbAction :=
  some (.submit_tx opp ⟨opp.expected_profit, cfg.bid_percentage⟩)

/-- Mutable strategy state: the pool-state cache and the last processed
block (strategy.rs fields pool_states and last_block). -/
structure StrategyState where
  pool_states : List (ℕ × PoolState)
  last_block : ℕ

/-- New-block event from types.rs (the base fee is unused by the core). -/
structure NewBlockEvent where
  block_number : ℕ
  timestamp : ℕ

/-- Embedding of NumoArb::process_new_block from strategy.rs: record the
block number, search for an opportunity, and emit the execution action if
one is found; both the no-opportunity and the error outcome produce no
actions. -/
def process_new_block (c : Chain) (cfg : Config) (curve : SofrCurve)
    (s : StrategyState) (ev : NewBlockEvent) : StrategyState × List ArbAction :=
  let s1 : StrategyState := { s with last_block := ev.block_number }
  match find_best_opportunity c cfg curve s1.pool_states ev.timestamp with
  | .ok (some opp) =>
    match execute_arbitrage cfg opp with
    | some a => (s1, [a])
    | none => (s1, [])
  | .ok none => (s1, [])
  | .error _ => (s1, [])

/-- Overwrite or insert one cache entry (HashMap::insert). -/
def insert_pool_state (l : List (ℕ × PoolState)) (addr : ℕ) (st : PoolState) :
    List (ℕ × PoolState) :=
  (addr, st) :: l.filter (fun p => p.1 != addr)

/-- Loop of NumoArb::sync_state from strategy.rs: refresh the cache entry of
every configured pool, skipping pools whose state read fails. -/
def sync_state_loop (c : Chain) (states : List (ℕ × PoolState)) :
    List ℕ → List (ℕ × PoolState)
  | [] => states
  | addr :: rest =>
    match c.get_pool_state addr with
    | .ok st => sync_state_loop c (insert_pool_state states addr st) rest
    | .error _ => sync_state_loop c states rest

/-- Embedding of NumoArb::sync_state from strategy.rs. -/
def sync_state (c : Chain) (cfg : Config) (s : StrategyState) : StrategyState :=
  { s with pool_states := sync_state_loop c s.pool_states cfg.pool_addresses }

/-! Concrete scenarios used by witnesses and counterexamples. All of them
use an empty SOFR curve (rate 0, discount factor 1, target price 10 ^ 18)
and pools at maturity, so the target-price computation is exact. -/

/-- The empty SOFR curve: interpolated rate 0 everywhere. -/
def curve0 : SofrCurve := ⟨[], .act360⟩

/-- A cached pool state at maturity timestamp 0 with empty reserves. -/
def pool_state_at (addr : ℕ) : PoolState := ⟨addr, 0, 0, 0, 0⟩

/-- Two-pool state cache. -/
def cacheS : List (ℕ × PoolState) := [(1, pool_state_at 1), (2, pool_state_at 2)]

/-- Three-pool state cache. -/
def cache3 : List (ℕ × PoolState) :=
  [(1, pool_state_at 1), (2, pool_state_at 2), (3, pool_state_at 3)]

/-- Two-pool configuration: edge 10 bps, slippage 100 bps, position caps
10 ^ 6 FY and 10 ^ 9 base. -/
def cfgS : Config := ⟨[1, 2], 10, 100, 10 ^ 6, 10 ^ 9, 80⟩

/-- Three-pool configuration, otherwise as cfgS. -/
def cfg3 : Config := ⟨[1, 2, 3], 10, 100, 10 ^ 6, 10 ^ 9, 80⟩

/-- Configuration over pools 2 and 3 only, otherwise as cfgS. -/
def cfg23 : Config := ⟨[2, 3], 10, 100, 10 ^ 6, 10 ^ 9, 80⟩

/-- Oracle for a clean profitable run: pool 1 prices at 0.9e18 (cheap),
pool 2 at 1.04e18 (rich); the solver always observes 1.04e18; buying the
sized FY amount on the cheap pool costs 1000 base, selling it on the rich
pool yields 1100 base. -/
def chainS : Chain where
  sell_base_preview := fun _ _ => .ok PRICE_PROBE_AMOUNT
  sell_fy_token_preview := fun pool amt =>
    if amt = PRICE_PROBE_AMOUNT then
      (if pool = 1 then .ok (8 * 10 ^ 14) else .ok (108 * 10 ^ 13))
    else .ok 1100
  buy_fy_token_preview := fun _ _ => .ok 1000
  solver_price := fun _ => .ok (104 * 10 ^ 16)
  get_pool_state := fun _ => .error ()

/-- The opportunity produced by chainS under cfgS: the bisection of
[0, 10 ^ 6] against the constant observed price 1.04e18 stops with best
candidate 999024; the raw cost 1000 and proceeds 1100 give expected profit
100, while the stored bounds carry the 100 bps slippage buffers. -/
def oppS : ArbOpportunity :=
  ⟨1, 2, 999024, 1010, 1089, 100, 10 ^ 18, 9 * 10 ^ 17, 104 * 10 ^ 16⟩

/-- Oracle like chainS with a third pool priced 1.0e18 in the middle, whose
reads all succeed, but where the buy-preview on pool 1 (the cheap pool)
fails. -/
def chainF : Chain where
  sell_base_preview := fun _ _ => .ok PRICE_PROBE_AMOUNT
  sell_fy_token_preview := fun pool amt =>
    if amt = PRICE_PROBE_AMOUNT then
      (if pool = 1 then .ok (8 * 10 ^ 14)
       else if pool = 2 then .ok (108 * 10 ^ 13)
       else .ok (10 ^ 15))
    else .ok 1100
  buy_fy_token_preview := fun pool _ =>
    if pool = 1 then .error () else .ok 1000
  solver_price := fun _ => .ok (104 * 10 ^ 16)
  get_pool_state := fun _ => .error ()

/-- The opportunity found by chainF when pool 1 is left out of the
configuration: pool 3 is cheap, pool 2 rich. -/
def opp23 : ArbOpportunity :=
  ⟨3, 2, 999024, 1010, 1089, 100, 10 ^ 18, 10 ^ 18, 104 * 10 ^ 16⟩

/-- Oracle like chainS with a third pool whose marginal-price read (the
sell-base preview) fails. -/
def chainPF : Chain where
  sell_base_preview := fun pool _ =>
    if pool = 3 then .error () else .ok PRICE_PROBE_AMOUNT
  sell_fy_token_preview := fun pool amt =>
    if amt = PRICE_PROBE_AMOUNT then
      (if pool = 1 then .ok (8 * 10 ^ 14) else .ok (108 * 10 ^ 13))
    else .ok 1100
  buy_fy_token_preview := fun _ _ => .ok 1000
  solver_price := fun _ => .ok (104 * 10 ^ 16)
  get_pool_state := fun _ => .error ()

/-- Oracle where both pools price identically at 1.04e18 and both legs of
the trade still preview profitably. -/
def chainT : Chain where
  sell_base_preview := fun _ _ => .ok PRICE_PROBE_AMOUNT
  sell_fy_token_preview := fun _ amt =>
    if amt = PRICE_PROBE_AMOUNT then .ok (108 * 10 ^ 13) else .ok 1100
  buy_fy_token_preview := fun _ _ => .ok 1000
  solver_price := fun _ => .ok (104 * 10 ^ 16)
  get_pool_state := fun _ => .error ()

/-- The opportunity reported by chainT under cfgS despite the exact price
tie: pool 1 is selected as cheap (first minimal), pool 2 as rich (last
maximal). -/
def oppT : ArbOpportunity :=
  ⟨1, 2, 999024, 1010, 1089, 100, 10 ^ 18, 104 * 10 ^ 16, 104 * 10 ^ 16⟩

/-- The decreasing-rate curve refuting monotonicity of the discount factor:
both rates are non-negative but t * r(t) decreases from 1 to 0 on [1, 2]. -/
def curveDec : SofrCurve := ⟨[⟨1, 1⟩, ⟨2, 0⟩], .act360⟩

/-- A two-knot curve with non-negative, non-decreasing rates. -/
def curveInc : SofrCurve := ⟨[⟨0, 1 / 100⟩, ⟨1, 2 / 100⟩], .act360⟩

/-- The two-knot curve of the specification example: rate 5 percent at t = 0
and 4 percent at t = 1. -/
def curveW : SofrCurve := ⟨[⟨0, 5 / 100⟩, ⟨1, 4 / 100⟩], .act360⟩

/-! Helper evaluation lemmas for the concrete scenarios. -/

/-- A pool at maturity at timestamp 0 has time to maturity 0. -/
theorem ttm_curve0 : time_to_maturity curve0 0 0 = 0 := by
  norm_num [time_to_maturity, curve0, DayCount.year_fraction_from_seconds]

/-- The empty curve's discount factor at 0 is 1, so the scaled target price
is exactly 10 ^ 18. -/
theorem target_price_curve0 : to_u128_scaled_1e18 (discount_factor curve0 0) = 10 ^ 18 := by
  norm_num [to_u128_scaled_1e18, discount_factor, U128_MAX]
  omega

/-- Full evaluation of the clean profitable two-pool run. -/
theorem run_chainS : find_best_opportunity chainS cfgS curve0 cacheS 0 = .ok (some oppS) := by
  have hpp : pool_prices_loop chainS curve0 cacheS 0 cfgS.pool_addresses
      = [(1, 9 * 10 ^ 17, time_to_maturity curve0 0 0),
         (2, 104 * 10 ^ 16, time_to_maturity curve0 0 0)] := rfl
  rw [ttm_curve0] at hpp
  unfold find_best_opportunity
  rw [if_neg (by decide), hpp]
  have h2 : find_from_prices chainS cfgS curve0
        [(1, 9 * 10 ^ 17, (0 : ℚ)), (2, 104 * 10 ^ 16, (0 : ℚ))]
      = scan_pair chainS cfgS 1 (9 * 10 ^ 17) 2 (104 * 10 ^ 16)
          (to_u128_scaled_1e18 (discount_factor curve0 0)) := rfl
  rw [h2, target_price_curve0]
  rfl

/-- Full evaluation of the exact-price-tie run: both pools price at
1.04e18, pool 1 is selected cheap and pool 2 rich, and an opportunity is
reported. -/
theorem run_chainT : find_best_opportunity chainT cfgS curve0 cacheS 0 = .ok (some oppT) := by
  have hpp : pool_prices_loop chainT curve0 cacheS 0 cfgS.pool_addresses
      = [(1, 104 * 10 ^ 16, time_to_maturity curve0 0 0),
         (2, 104 * 10 ^ 16, time_to_maturity curve0 0 0)] := rfl
  rw [ttm_curve0] at hpp
  unfold find_best_opportunity
  rw [if_neg (by decide), hpp]
  have h2 : find_from_prices chainT cfgS curve0
        [(1, 104 * 10 ^ 16, (0 : ℚ)), (2, 104 * 10 ^ 16, (0 : ℚ))]
      = scan_pair chainT cfgS 1 (104 * 10 ^ 16) 2 (104 * 10 ^ 16)
          (to_u128_scaled_1e18 (discount_factor curve0 0)) := rfl
  rw [h2, target_price_curve0]
  rfl

/-- Full evaluation of the run where pool 3's marginal-price read fails:
the scan silently continues on pools 1 and 2 and still reports the clean
opportunity. -/
theorem run_chainPF : find_best_opportunity chainPF cfg3 curve0 cache3 0 = .ok (some oppS) := by
  have hpp : pool_prices_loop chainPF curve0 cache3 0 cfg3.pool_addresses
      = [(1, 9 * 10 ^ 17, time_to_maturity curve0 0 0),
         (2, 104 * 10 ^ 16, time_to_maturity curve0 0 0)] := rfl
  rw [ttm_curve0] at hpp
  unfold find_best_opportunity
  rw [if_neg (by decide), hpp]
  have h2 : find_from_prices chainPF cfg3 curve0
        [(1, 9 * 10 ^ 17, (0 : ℚ)), (2, 104 * 10 ^ 16, (0 : ℚ))]
      = scan_pair chainPF cfg3 1 (9 * 10 ^ 17) 2 (104 * 10 ^ 16)
          (to_u128_scaled_1e18 (discount_factor curve0 0)) := rfl
  rw [h2, target_price_curve0]
  rfl

/-- Full evaluation of the run where the cheap pool's buy-preview fails:
the whole cycle aborts with a transient error even though pools 2 and 3
alone form a profitable pair. -/
theorem run_chainF_err : find_best_opportunity chainF cfg3 curve0 cache3 0 = .error .transient := by
  have hpp : pool_prices_loop chainF curve0 cache3 0 cfg3.pool_addresses
      = [(1, 9 * 10 ^ 17, time_to_maturity curve0 0 0),
         (2, 104 * 10 ^ 16, time_to_maturity curve0 0 0),
         (3, 10 ^ 18, time_to_maturity curve0 0 0)] := rfl
  rw [ttm_curve0] at hpp
  unfold find_best_opportunity
  rw [if_neg (by decide), hpp]
  have h2 : find_from_prices chainF cfg3 curve0
        [(1, 9 * 10 ^ 17, (0 : ℚ)), (2, 104 * 10 ^ 16, (0 : ℚ)), (3, 10 ^ 18, (0 : ℚ))]
      = scan_pair chainF cfg3 1 (9 * 10 ^ 17) 2 (104 * 10 ^ 16)
          (to_u128_scaled_1e18 (discount_factor curve0 0)) := rfl
  rw [h2, target_price_curve0]
  rfl

/-- Full evaluation of the same oracle restricted to pools 2 and 3 - pool 3
is cheap, pool 2 rich, and the opportunity goes through. -/
theorem run_chainF_23 : find_best_opportunity chainF cfg23 curve0 cache3 0 = .ok (some opp23) := by
  have hpp : pool_prices_loop chainF curve0 cache3 0 cfg23.pool_addresses
      = [(2, 104 * 10 ^ 16, time_to_maturity curve0 0 0),
         (3, 10 ^ 18, time_to_maturity curve0 0 0)] := rfl
  rw [ttm_curve0] at hpp
  unfold find_best_opportunity
  rw [if_neg (by decide), hpp]
  have h2 : find_from_prices chainF cfg23 curve0
        [(2, 104 * 10 ^ 16, (0 : ℚ)), (3, 10 ^ 18, (0 : ℚ))]
      = scan_pair chainF cfg23 3 (10 ^ 18) 2 (104 * 10 ^ 16)
          (to_u128_scaled_1e18 (discount_factor curve0 0)) := rfl
  rw [h2, target_price_curve0]
  rfl



/-! Claim C4: apply_slippage examples and saturation. -/

/-- C4 (amended): apply_slippage(10000, 100 bps, maxIn) = 10100 and
apply_slippage(10000, 100 bps, minOut) = 9900; and for every amount and
slippage_bps whose product fits in u128, the result is the ideal
slippage-adjusted amount saturated at the u128 bounds. (The claim's
unconditional saturation fails: when amount * slippage_bps overflows u128
the intermediate multiplication wraps, see the counterexample.) -/
theorem C4_apply_slippage_saturates :
    apply_slippage 10000 100 true = 10100 ∧
    apply_slippage 10000 100 false = 9900 ∧
    ∀ amount slippage_bps : ℕ, amount * slippage_bps < U128_SIZE →
      apply_slippage amount slippage_bps true
          = min (amount + amount * slippage_bps / 10000) U128_MAX ∧
      apply_slippage amount slippage_bps false
          = amount - amount * slippage_bps / 10000 := by
  refine ⟨by decide, by decide, ?_⟩
  intro a b h
  simp only [apply_slippage, Nat.mod_eq_of_lt h]
  exact ⟨rfl, rfl⟩

/-- Witness for C4: the in-range example input. -/
theorem C4_apply_slippage_saturates_witness :
    (10000 : ℕ) * 100 < U128_SIZE ∧
    apply_slippage 10000 100 true = min (10000 + 10000 * 100 / 10000) U128_MAX ∧
    apply_slippage 10000 100 false = 10000 - 10000 * 100 / 10000 := by
  have h : (10000 : ℕ) * 100 < U128_SIZE := by decide
  exact ⟨h, (C4_apply_slippage_saturates.2.2 10000 100 h).1,
    (C4_apply_slippage_saturates.2.2 10000 100 h).2⟩

/-- Counterexample for C4 as stated: at amount 2 ^ 127 and 20000 bps the
intermediate u128 product wraps to a multiple of 2 ^ 128, the adjustment
becomes 0, and the result is 2 ^ 127 instead of the saturated u128 maximum
that the claim promises (in debug builds this multiplication panics). -/
theorem C4_intermediate_overflow_counterexample :
    apply_slippage (2 ^ 127) 20000 true = 2 ^ 127 ∧
    apply_slippage_exact (2 ^ 127) 20000 true = U128_MAX ∧
    (2 ^ 127 : ℕ) ≠ U128_MAX := by
  exact ⟨by decide, by decide, by decide⟩

/-! Claim C6: price_divergence_bps formula and examples. -/

/-- C6 (amended): price_divergence_bps returns 0 when the target is 0,
matches the two specification examples, and computes
floor(diff * 10000 / target) whenever the U256 product does not overflow
and the quotient fits in u32; outside those bounds the Rust code panics
(see the counterexample). -/
theorem C6_price_divergence_bps_amended :
    price_divergence_bps 1010000 1000000 = some 100 ∧
    price_divergence_bps 995000 1000000 = some 50 ∧
    (∀ p, price_divergence_bps p 0 = some 0) ∧
    ∀ p t : ℕ, t ≠ 0 →
      (if t < p then p - t else t - p) * 10000 < U256_SIZE →
      (if t < p then p - t else t - p) * 10000 / t < 2 ^ 32 →
      price_divergence_bps p t
          = some ((if t < p then p - t else t - p) * 10000 / t) := by
  refine ⟨by decide, by decide, fun p => by simp [price_divergence_bps], ?_⟩
  intro p t ht h1 h2
  simp only [price_divergence_bps, if_neg ht, if_neg (not_le.mpr h1), if_neg (not_le.mpr h2)]

/-- Witness for C6: the first specification example satisfies the bounds. -/
theorem C6_price_divergence_bps_amended_witness :
    (1000000 : ℕ) ≠ 0 ∧
    (if (1000000 : ℕ) < 1010000 then 1010000 - 1000000 else 1000000 - 1010000) * 10000
        < U256_SIZE ∧
    (if (1000000 : ℕ) < 1010000 then 1010000 - 1000000 else 1000000 - 1010000) * 10000
        / 1000000 < 2 ^ 32 ∧
    price_divergence_bps 1010000 1000000
        = some ((if (1000000 : ℕ) < 1010000 then 1010000 - 1000000 else 1000000 - 1010000)
            * 10000 / 1000000) := by
  exact ⟨by decide, by decide, by decide,
    C6_price_divergence_bps_amended.2.2.2 1010000 1000000 (by decide) (by decide) (by decide)⟩

/-- Counterexample for C6 as stated: at pool price 2 ^ 40 against target 1
the true divergence (2 ^ 40 - 1) * 10000 does not fit in u32, the as_u32
conversion panics (embedded as none), and the function does not return the
floor formula the claim states for every input. -/
theorem C6_formula_fails_on_panic_counterexample :
    price_divergence_bps (2 ^ 40) 1 = none ∧
    price_divergence_bps (2 ^ 40) 1 ≠ some ((2 ^ 40 - 1) * 10000 / 1) := by
  exact ⟨by decide, by decide⟩

/-! Claim C9: totality of price_divergence_bps. -/

/-- C9 (amended): price_divergence_bps is total and u32-valued only on the
inputs where the U256 product does not overflow and the divergence fits in
u32 (or the target is 0); the claim's unconditional totality fails because
as_u32 panics, see the counterexample. -/
theorem C9_price_divergence_bps_total_when_bounded :
    ∀ p t : ℕ,
      (t = 0 ∨
        ((if t < p then p - t else t - p) * 10000 < U256_SIZE ∧
          (if t < p then p - t else t - p) * 10000 / t < 2 ^ 32)) →
      ∃ v, price_divergence_bps p t = some v ∧ v < 2 ^ 32 := by
  intro p t h
  by_cases ht : t = 0
  · subst ht
    exact ⟨0, by simp [price_divergence_bps], by norm_num⟩
  · rcases h with h0 | ⟨h1, h2⟩
    · exact absurd h0 ht
    · exact ⟨_, by
        simp only [price_divergence_bps, if_neg ht, if_neg (not_le.mpr h1),
          if_neg (not_le.mpr h2)], h2⟩

/-- Witness for C9: the bounded example input. -/
theorem C9_price_divergence_bps_total_when_bounded_witness :
    ((1000000 : ℕ) = 0 ∨
      ((if (1000000 : ℕ) < 995000 then 995000 - 1000000 else 1000000 - 995000) * 10000
          < U256_SIZE ∧
        (if (1000000 : ℕ) < 995000 then 995000 - 1000000 else 1000000 - 995000) * 10000
          / 1000000 < 2 ^ 32)) ∧
    ∃ v, price_divergence_bps 995000 1000000 = some v ∧ v < 2 ^ 32 := by
  have h : ((1000000 : ℕ) = 0 ∨
      ((if (1000000 : ℕ) < 995000 then 995000 - 1000000 else 1000000 - 995000) * 10000
          < U256_SIZE ∧
        (if (1000000 : ℕ) < 995000 then 995000 - 1000000 else 1000000 - 995000) * 10000
          / 1000000 < 2 ^ 32)) := Or.inr ⟨by decide, by decide⟩
  exact ⟨h, C9_price_divergence_bps_total_when_bounded 995000 1000000 h⟩

/-- Counterexample for C9 as stated: at pool price 2 ^ 32 against target 1
the divergence (2 ^ 32 - 1) * 10000 exceeds the u32 range and as_u32
panics (none); the function is not total. -/
theorem C9_as_u32_panic_counterexample :
    price_divergence_bps (2 ^ 32) 1 = none := by decide

/-! Claim C10: processing a block never modifies the pool-state cache. -/

/-- C10 (confirmed): for every oracle, configuration, curve, state and
block event, process_new_block leaves the pool_states cache exactly as it
was, in all three outcomes (opportunity emitted, no opportunity, error);
the cache is written only by sync_state. -/
theorem C10_process_new_block_preserves_cache :
    ∀ (c : Chain) (cfg : Config) (curve : SofrCurve) (s : StrategyState)
      (ev : NewBlockEvent),
      (process_new_block c cfg curve s ev).1.pool_states = s.pool_states := by
  intro c cfg curve s ev
  simp only [process_new_block]
  split <;> rfl

/-! Claim C3: behavior of the cheap/rich selection on an exact price tie. -/

/-- C3 (amended): with exactly two priced pools of identical price, the
min_by_key selection returns the first pool and the max_by_key selection
the second, so the cheap and rich pools do not coincide and the scan
proceeds (the coincidence guard only fires when a single priced pool
remains); an opportunity can still be reported, see the counterexample. -/
theorem C3_tie_selects_first_and_last :
    ∀ e1 e2 : ℕ × ℕ × ℚ, e1.2.1 = e2.2.1 →
      min_price_idx [e1, e2] = some 0 ∧ max_price_idx [e1, e2] = some 1 := by
  intro e1 e2 h
  constructor
  · simp [min_price_idx, min_price_idx_aux, h]
  · simp [max_price_idx, max_price_idx_aux, h]

/-- Witness for C3: a concrete tied pair. -/
theorem C3_tie_selects_first_and_last_witness :
    ((1, 5, (0 : ℚ)) : ℕ × ℕ × ℚ).2.1 = ((2, 5, (0 : ℚ)) : ℕ × ℕ × ℚ).2.1 ∧
    min_price_idx [(1, 5, (0 : ℚ)), (2, 5, 0)] = some 0 ∧
    max_price_idx [(1, 5, (0 : ℚ)), (2, 5, 0)] = some 1 := by
  have h := C3_tie_selects_first_and_last (1, 5, (0 : ℚ)) (2, 5, 0) rfl
  exact ⟨rfl, h.1, h.2⟩

/-- Counterexample for C3 as stated: under chainT both pools are priced at
exactly 1.04e18 (the marginal-price computations agree), yet the scanner
reports an opportunity rather than none: the selections do not coincide on
a tie (first minimal versus last maximal). -/
theorem C3_identical_prices_still_report_counterexample :
    marginal_price_base_per_fy chainT 1 = marginal_price_base_per_fy chainT 2 ∧
    find_best_opportunity chainT cfgS curve0 cacheS 0 = .ok (some oppT) :=
  ⟨rfl, run_chainT⟩

/-! Claim C7: bisection solver iteration cap and none cases. -/

/-- The solver loop consults only the price queries with index below
iter + fuel: two oracles agreeing there give identical runs. -/
theorem solve_loop_agrees (p q : ℕ → Except Unit ℕ) (t : ℕ) :
    ∀ fuel iter lo hi best : ℕ, (∀ i, i < iter + fuel → p i = q i) →
      solve_loop p t fuel iter lo hi best = solve_loop q t fuel iter lo hi best := by
  intro fuel
  induction fuel with
  | zero => intro iter lo hi best _; rfl
  | succ n ih =>
    intro iter lo hi best h
    simp only [solve_loop]
    by_cases h1 : hi ≤ lo
    · simp [h1]
    · simp only [if_neg h1]
      by_cases h2 : (lo + hi) / 2 = 0
      · simp [h2]
      · simp only [if_neg h2]
        rw [h iter (by omega)]
        cases hq : q iter with
        | error e => rfl
        | ok v =>
          by_cases h3 : t < v
          · simp only [if_pos h3]
            by_cases h4 : u128_wrapping_sub hi (min ((lo + hi) / 2 + 1) U128_MAX) < 1000
            · simp [h4]
            · simp only [if_neg h4]
              exact ih (iter + 1) _ hi _ (fun i hlt => h i (by omega))
          · simp only [if_neg h3]
            by_cases h4 : u128_wrapping_sub ((lo + hi) / 2 - 1) lo < 1000
            · simp [h4]
            · simp only [if_neg h4]
              exact ih (iter + 1) lo _ best (fun i hlt => h i (by omega))

/-- When every price query succeeds with a value at or below the target,
the best candidate is never recorded and the loop returns its initial 0. -/
theorem solve_loop_never_above (p : ℕ → Except Unit ℕ) (t : ℕ)
    (h : ∀ i, ∃ v, p i = .ok v ∧ v ≤ t) :
    ∀ fuel iter lo hi : ℕ, solve_loop p t fuel iter lo hi 0 = .ok 0 := by
  intro fuel
  induction fuel with
  | zero => intro iter lo hi; rfl
  | succ n ih =>
    intro iter lo hi
    simp only [solve_loop]
    by_cases h1 : hi ≤ lo
    · simp [h1]
    · simp only [if_neg h1]
      by_cases h2 : (lo + hi) / 2 = 0
      · simp [h2]
      · simp only [if_neg h2]
        obtain ⟨v, hv, hvt⟩ := h iter
        rw [hv]
        simp only [if_neg (not_lt.mpr hvt)]
        by_cases h4 : u128_wrapping_sub ((lo + hi) / 2 - 1) lo < 1000
        · simp [h4]
        · simp only [if_neg h4]
          exact ih (iter + 1) lo _

/-- C7 (confirmed): the bisection solver performs at most 25 iterations
(its result depends only on the first 25 price queries); it returns none
when the maximum tradable size is 0; and it returns none whenever every
price query it can make observes a price at or below the target. -/
theorem C7_solver_cap_and_none_cases :
    (∀ (p q : ℕ → Except Unit ℕ) (t m : ℕ),
        (∀ i, i < MAX_BISECTION_ITERATIONS → p i = q i) →
        solve_fy_amount_to_target p t m = solve_fy_amount_to_target q t m) ∧
    (∀ (p : ℕ → Except Unit ℕ) (t : ℕ), solve_fy_amount_to_target p t 0 = .ok none) ∧
    (∀ (p : ℕ → Except Unit ℕ) (t m : ℕ),
        (∀ i, ∃ v, p i = .ok v ∧ v ≤ t) →
        solve_fy_amount_to_target p t m = .ok none) := by
  refine ⟨?_, fun p t => rfl, ?_⟩
  · intro p q t m h
    unfold solve_fy_amount_to_target
    rw [solve_loop_agrees p q t MAX_BISECTION_ITERATIONS 0 0 m 0
      (fun i hlt => h i (by simpa using hlt))]
  · intro p t m h
    unfold solve_fy_amount_to_target
    rw [solve_loop_never_above p t h MAX_BISECTION_ITERATIONS 0 0 m]
    rfl

/-- Witness for C7: concrete applications of all three components. -/
theorem C7_solver_cap_and_none_cases_witness :
    (∀ i, i < MAX_BISECTION_ITERATIONS →
        (fun _ : ℕ => (Except.ok 5 : Except Unit ℕ)) i
          = (fun j => if j < 25 then (Except.ok 5 : Except Unit ℕ) else .ok 99) i) ∧
    solve_fy_amount_to_target (fun _ => .ok 5) 3 (10 ^ 6)
      = solve_fy_amount_to_target (fun j => if j < 25 then .ok 5 else .ok 99) 3 (10 ^ 6) ∧
    solve_fy_amount_to_target (fun _ => .ok 5) 3 0 = .ok none ∧
    (∀ i, ∃ v, (fun _ : ℕ => (Except.ok 5 : Except Unit ℕ)) i = .ok v ∧ v ≤ 7) ∧
    solve_fy_amount_to_target (fun _ => .ok 5) 7 (10 ^ 6) = .ok none := by
  have ha : ∀ i, i < MAX_BISECTION_ITERATIONS →
      (fun _ : ℕ => (Except.ok 5 : Except Unit ℕ)) i
        = (fun j => if j < 25 then (Except.ok 5 : Except Unit ℕ) else .ok 99) i := by
    intro i hi
    have hi25 : i < 25 := hi
    simp [hi25]
  have hb : ∀ i, ∃ v, (fun _ : ℕ => (Except.ok 5 : Except Unit ℕ)) i = .ok v ∧ v ≤ 7 :=
    fun _ => ⟨5, rfl, by norm_num⟩
  exact ⟨ha, C7_solver_cap_and_none_cases.1 _ _ 3 (10 ^ 6) ha,
    C7_solver_cap_and_none_cases.2.1 (fun _ => .ok 5) 3,
    hb, C7_solver_cap_and_none_cases.2.2 (fun _ => .ok 5) 7 (10 ^ 6) hb⟩

/-! Claim C2: effect of read failures on the evaluation cycle. -/

/-- A pool whose marginal-price query fails contributes nothing to the
priced list: pricing a pool list is the same as pricing it with that pool
filtered out. -/
theorem pool_prices_loop_filter (c : Chain) (curve : SofrCurve)
    (states : List (ℕ × PoolState)) (ts a : ℕ)
    (h : marginal_price_base_per_fy c a = .error ()) :
    ∀ l : List ℕ, pool_prices_loop c curve states ts l
      = pool_prices_loop c curve states ts (l.filter (fun x => x != a)) := by
  intro l
  induction l with
  | nil => rfl
  | cons x rest ih =>
    by_cases hx : x = a
    · subst hx
      simp only [List.filter_cons, bne_self_eq_false, if_false, Bool.false_eq_true]
      simp only [pool_prices_loop, h]
      exact ih
    · have hbx : (x != a) = true := bne_iff_ne.mpr hx
      simp only [List.filter_cons, hbx, if_true]
      simp only [pool_prices_loop]
      rw [ih]

/-- C2 (amended): a failure of a pool's marginal-price query during the
scan degrades only that pool: the cycle behaves exactly as if the pool had
been dropped from the configured list, and can still report an opportunity
from the remaining pools. (The claim's stronger form is false: a preview
failure during sizing or cost/proceeds queries aborts the whole cycle, see
the counterexample.) -/
theorem C2_price_failure_excludes_only_that_pool :
    ∀ (c : Chain) (cfg : Config) (curve : SofrCurve)
      (states : List (ℕ × PoolState)) (ts a : ℕ),
      marginal_price_base_per_fy c a = .error () →
      find_best_opportunity c cfg curve states ts
        = find_best_opportunity c
            { cfg with pool_addresses := cfg.pool_addresses.filter (fun x => x != a) }
            curve states ts := by
  intro c cfg curve states ts a h
  obtain ⟨pa, eb, sb, mf, mb, bp⟩ := cfg
  unfold find_best_opportunity
  by_cases hl : states.length < 2
  · simp [hl]
  · simp only [if_neg hl]
    rw [pool_prices_loop_filter c curve states ts a h pa]
    rfl

/-- Witness for C2: pool 3's price read fails under chainPF, the cycle
equals the cycle over pools 1 and 2 alone, and still reports the clean
opportunity. -/
theorem C2_price_failure_excludes_only_that_pool_witness :
    marginal_price_base_per_fy chainPF 3 = .error () ∧
    find_best_opportunity chainPF cfg3 curve0 cache3 0
      = find_best_opportunity chainPF
          { cfg3 with pool_addresses := cfg3.pool_addresses.filter (fun x => x != 3) }
          curve0 cache3 0 ∧
    find_best_opportunity chainPF cfg3 curve0 cache3 0 = .ok (some oppS) :=
  ⟨rfl, C2_price_failure_excludes_only_that_pool chainPF cfg3 curve0 cache3 0 3 rfl,
    run_chainPF⟩

/-- Counterexample for C2 as stated: under chainF every pool is priced,
but the buy-preview on the selected cheap pool fails, and the whole cycle
aborts with an error (no opportunity at all), even though pools 2 and 3
alone - the pools the failure does not touch - form a reportable
opportunity. -/
theorem C2_preview_failure_aborts_cycle_counterexample :
    find_best_opportunity chainF cfg3 curve0 cache3 0 = .error .transient ∧
    find_best_opportunity chainF cfg23 curve0 cache3 0 = .ok (some opp23) :=
  ⟨run_chainF_err, run_chainF_23⟩

/-! Claim C1: what expected_profit actually is. -/

/-- C1 (amended): every opportunity returned by the scanner records as
expected_profit the raw cost and proceeds difference - the buy preview on
the cheap pool and the sell preview on the rich pool, before slippage
adjustment - which is positive by the profitability guard (and in
particular never negative); the slippage-adjusted amounts are stored in
max_base_in and min_base_out. (The claim's slippage-adjusted reading is
false, see the counterexample.) -/
theorem C1_expected_profit_is_raw_difference :
    ∀ (c : Chain) (cfg : Config) (curve : SofrCurve)
      (states : List (ℕ × PoolState)) (ts : ℕ) (opp : ArbOpportunity),
      find_best_opportunity c cfg curve states ts = .ok (some opp) →
      ∃ cost proceeds : ℕ,
        c.buy_fy_token_preview opp.cheap_pool opp.fy_amount = .ok cost ∧
        c.sell_fy_token_preview opp.rich_pool opp.fy_amount = .ok proceeds ∧
        cost < proceeds ∧
        opp.expected_profit = proceeds - cost ∧
        opp.max_base_in = apply_slippage cost cfg.slippage_bps true ∧
        opp.min_base_out = apply_slippage proceeds cfg.slippage_bps false := by
  intro c cfg curve states ts opp h
  unfold find_best_opportunity at h
  split at h
  · exact absurd h (by simp)
  · generalize pool_prices_loop c curve states ts cfg.pool_addresses = pp at h
    unfold find_from_prices at h
    split at h
    · exact absurd h (by simp)
    · split at h
      · split at h
        · exact absurd h (by simp)
        · simp only [scan_pair] at h
          split at h
          · exact absurd h (by simp)
          · exact absurd h (by simp)
          · split at h
            · exact absurd h (by simp)
            · exact absurd h (by simp)
            · split at h
              · exact absurd h (by simp)
              · split at h
                · exact absurd h (by simp)
                · rename_i cost hbuy
                  split at h
                  · exact absurd h (by simp)
                  · rename_i proceeds hsell
                    split at h
                    · exact absurd h (by simp)
                    · rename_i hlt
                      split at h
                      · exact absurd h (by simp)
                      · split at h
                        · simp only [Except.ok.injEq, Option.some.injEq] at h
                          subst h
                          exact ⟨cost, proceeds, hbuy, hsell, by omega, rfl, rfl, rfl⟩
                        · exact absurd h (by simp)
      · exact absurd h (by simp)

/-- Witness for C1: the clean run instantiates the invariant. -/
theorem C1_expected_profit_is_raw_difference_witness :
    ∃ cost proceeds : ℕ,
      chainS.buy_fy_token_preview oppS.cheap_pool oppS.fy_amount = .ok cost ∧
      chainS.sell_fy_token_preview oppS.rich_pool oppS.fy_amount = .ok proceeds ∧
      cost < proceeds ∧
      oppS.expected_profit = proceeds - cost ∧
      oppS.max_base_in = apply_slippage cost cfgS.slippage_bps true ∧
      oppS.min_base_out = apply_slippage proceeds cfgS.slippage_bps false :=
  C1_expected_profit_is_raw_difference chainS cfgS curve0 cacheS 0 oppS run_chainS

/-- Counterexample for C1 as stated: the clean run returns an opportunity
whose expected_profit is 100, the raw 1100 - 1000 difference, while the
slippage-adjusted proceeds minus cost (the stored min_base_out and
max_base_in, 1089 - 1010) is 79. -/
theorem C1_slippage_adjusted_counterexample :
    find_best_opportunity chainS cfgS curve0 cacheS 0 = .ok (some oppS) ∧
    oppS.expected_profit ≠ oppS.min_base_out - oppS.max_base_in :=
  ⟨run_chainS, by decide⟩

/-! Claim C8: interpolate_rate at and outside the knots. -/

/-- The default-last element of a list is the default or a member. -/
theorem getLastD_mem_cons {α : Type} : ∀ (l : List α) (a : α), l.getLastD a ∈ a :: l := by
  intro l
  induction l with
  | nil => intro a; rw [List.getLastD_nil]; exact List.mem_cons_self a []
  | cons b r ih =>
    intro a
    rw [List.getLastD_cons]
    exact List.mem_cons_of_mem a (ih b)

/-- Inside the interpolation loop, the value at a knot's time is exactly
that knot's rate (the bracketing segment degenerates to its right end). -/
theorem interpolate_rate_aux_at_knot :
    ∀ (ks : List CurveKnot) (prev k : CurveKnot),
      List.Pairwise (fun a b => a.t < b.t) (prev :: ks) → k ∈ ks →
      interpolate_rate_aux prev ks k.t = k.rate := by
  intro ks
  induction ks with
  | nil => intro prev k _ hk; cases hk
  | cons k1 rest ih =>
    intro prev k hp hk
    have hp1 := List.pairwise_cons.mp hp
    rcases List.mem_cons.mp hk with hk | hk
    · subst hk
      have hlt : prev.t < k.t := hp1.1 k (List.mem_cons_self k rest)
      have hne : k.t - prev.t ≠ 0 := sub_ne_zero.mpr (ne_of_gt hlt)
      simp only [interpolate_rate_aux, if_pos (le_refl k.t)]
      rw [div_self hne, one_mul]
      ring
    · have hk1t : k1.t < k.t := (List.pairwise_cons.mp hp1.2).1 k hk
      simp only [interpolate_rate_aux, if_neg (not_le.mpr hk1t)]
      exact ih k1 k hp1.2 hk

/-- In a strictly sorted knot list, every member is either strictly before
the last knot or is the last knot. -/
theorem mem_lt_or_eq_getLastD :
    ∀ (ks : List CurveKnot) (k0 k : CurveKnot),
      List.Pairwise (fun a b => a.t < b.t) (k0 :: ks) → k ∈ k0 :: ks →
      k.t < (ks.getLastD k0).t ∨ k = ks.getLastD k0 := by
  intro ks
  induction ks with
  | nil =>
    intro k0 k _ hk
    right
    rw [List.getLastD_nil]
    exact List.mem_singleton.mp hk
  | cons k1 rest ih =>
    intro k0 k hp hk
    rw [List.getLastD_cons]
    rcases List.mem_cons.mp hk with hk | hk
    · subst hk
      left
      exact (List.pairwise_cons.mp hp).1 _ (getLastD_mem_cons rest k1)
    · exact ih k1 k (List.pairwise_cons.mp hp).2 hk

/-- C8 (confirmed): interpolate_rate returns the first knot's rate for t at
or below the first knot's time; for a strictly sorted curve it returns the
last knot's rate for t at or above the last knot's time and each knot's
rate exactly at that knot's time; and on the two-knot curve with rates 0.05
and 0.04 the rate at 0.5 is exactly 0.045. -/
theorem C8_interpolate_rate_properties :
    (∀ (c : SofrCurve) (k0 : CurveKnot) (ks : List CurveKnot), c.knots = k0 :: ks →
        ∀ t, t ≤ k0.t → c.rate t = k0.rate) ∧
    (∀ (c : SofrCurve) (k0 : CurveKnot) (ks : List CurveKnot),
        List.Pairwise (fun a b => a.t < b.t) c.knots → c.knots = k0 :: ks →
        ∀ t, (ks.getLastD k0).t ≤ t → c.rate t = (ks.getLastD k0).rate) ∧
    (∀ c : SofrCurve, List.Pairwise (fun a b => a.t < b.t) c.knots →
        ∀ k ∈ c.knots, c.rate k.t = k.rate) ∧
    curveW.rate (1 / 2) = 45 / 1000 := by
  refine ⟨?_, ?_, ?_, ?_⟩
  · intro c k0 ks hc t ht
    unfold SofrCurve.rate interpolate_rate
    rw [hc]
    dsimp only
    rw [if_pos ht]
  · intro c k0 ks hs hc t ht
    rw [hc] at hs
    unfold SofrCurve.rate interpolate_rate
    rw [hc]
    dsimp only
    by_cases h1 : t ≤ k0.t
    · cases ks with
      | nil =>
        rw [List.getLastD_nil]
        rw [if_pos h1]
      | cons k1 rest =>
        exfalso
        have h0l : k0.t < ((k1 :: rest).getLastD k0).t := by
          rw [List.getLastD_cons]
          exact (List.pairwise_cons.mp hs).1 _ (getLastD_mem_cons rest k1)
        have := le_trans ht h1
        exact absurd this (not_le.mpr h0l)
    · rw [if_neg h1, if_pos ht]
  · intro c hs k hk
    obtain ⟨knots, dc⟩ := c
    unfold SofrCurve.rate interpolate_rate
    dsimp only at hs hk ⊢
    cases knots with
    | nil => cases hk
    | cons k0 ks =>
      dsimp only
      rcases List.mem_cons.mp hk with hk | hk
      · subst hk
        rw [if_pos (le_refl k.t)]
      · have h0k : k0.t < k.t := (List.pairwise_cons.mp hs).1 k hk
        rw [if_neg (not_le.mpr h0k)]
        rcases mem_lt_or_eq_getLastD ks k0 k hs (List.mem_cons_of_mem k0 hk) with hlt | heq
        · rw [if_neg (not_le.mpr hlt)]
          exact interpolate_rate_aux_at_knot ks k0 k hs hk
        · rw [← heq]
          rw [if_pos (le_refl k.t)]
  · unfold SofrCurve.rate interpolate_rate curveW
    dsimp only
    rw [List.getLastD_cons, List.getLastD_nil]
    norm_num [interpolate_rate_aux]

/-- Witness for C8: concrete applications of the flat-extrapolation parts
and the knot-exactness part on the two-knot example curve. -/
theorem C8_interpolate_rate_properties_witness :
    curveW.knots = (⟨0, 5 / 100⟩ : CurveKnot) :: [⟨1, 4 / 100⟩] ∧
    List.Pairwise (fun a b => a.t < b.t) curveW.knots ∧
    (⟨1, 4 / 100⟩ : CurveKnot) ∈ curveW.knots ∧
    ((-1 : ℚ)) ≤ (⟨0, 5 / 100⟩ : CurveKnot).t ∧
    (([⟨1, 4 / 100⟩] : List CurveKnot).getLastD ⟨0, 5 / 100⟩).t ≤ (2 : ℚ) ∧
    curveW.rate (-1) = (⟨0, 5 / 100⟩ : CurveKnot).rate ∧
    curveW.rate 2 = (([⟨1, 4 / 100⟩] : List CurveKnot).getLastD ⟨0, 5 / 100⟩).rate ∧
    curveW.rate (⟨1, 4 / 100⟩ : CurveKnot).t = (⟨1, 4 / 100⟩ : CurveKnot).rate ∧
    curveW.rate (1 / 2) = 45 / 1000 := by
  have hc : curveW.knots = (⟨0, 5 / 100⟩ : CurveKnot) :: [⟨1, 4 / 100⟩] := rfl
  have hs : List.Pairwise (fun a b : CurveKnot => a.t < b.t) curveW.knots := by
    rw [hc]
    refine List.Pairwise.cons ?_ (List.pairwise_singleton _ _)
    intro k hk
    rw [List.mem_singleton] at hk
    subst hk
    norm_num
  have hm : (⟨1, 4 / 100⟩ : CurveKnot) ∈ curveW.knots := by
    rw [hc]
    exact List.mem_cons_of_mem _ (List.mem_cons_self _ _)
  refine ⟨hc, hs, hm, by norm_num, by norm_num [List.getLastD_cons, List.getLastD_nil], ?_, ?_, ?_,
    C8_interpolate_rate_properties.2.2.2⟩
  · exact C8_interpolate_rate_properties.1 curveW _ _ hc (-1) (by norm_num)
  · exact C8_interpolate_rate_properties.2.1 curveW _ _ hs hc 2
      (by norm_num [List.getLastD_cons, List.getLastD_nil])
  · exact C8_interpolate_rate_properties.2.2.1 curveW hs _ hm

/-! Claim C5: discount factor at 0 and monotonicity. -/

/-- In a time-sorted, rate-monotone knot list, the head's rate is at most
the last rate. -/
theorem head_rate_le_getLastD (rest : List CurveKnot) (k : CurveKnot)
    (h : List.Pairwise (fun a b : CurveKnot => a.t < b.t ∧ a.rate ≤ b.rate) (k :: rest)) :
    k.rate ≤ (rest.getLastD k).rate := by
  cases rest with
  | nil => rw [List.getLastD_nil]
  | cons k1 r2 =>
    rw [List.getLastD_cons]
    exact ((List.pairwise_cons.mp h).1 _ (getLastD_mem_cons r2 k1)).2

/-- Lower bound of the interpolation loop: past its left end, the value is
at least the previous knot's rate when rates are non-decreasing. -/
theorem interpolate_rate_aux_lb :
    ∀ (ks : List CurveKnot) (prev : CurveKnot) (t : ℚ), prev.t < t →
      List.Pairwise (fun a b : CurveKnot => a.t < b.t ∧ a.rate ≤ b.rate) (prev :: ks) →
      prev.rate ≤ interpolate_rate_aux prev ks t := by
  intro ks
  induction ks with
  | nil => intro prev t _ _; exact le_refl _
  | cons k rest ih =>
    intro prev t ht hp
    have hp1 := List.pairwise_cons.mp hp
    have hhead := hp1.1 k (List.mem_cons_self k rest)
    by_cases hle : t ≤ k.t
    · simp only [interpolate_rate_aux, if_pos hle]
      have hx : 0 ≤ (t - prev.t) / (k.t - prev.t) * (k.rate - prev.rate) :=
        mul_nonneg (div_nonneg (by linarith) (by linarith [hhead.1])) (by linarith [hhead.2])
      linarith
    · simp only [interpolate_rate_aux, if_neg hle]
      exact le_trans hhead.2 (ih k t (not_le.mp hle) hp1.2)

/-- Upper bound of the interpolation loop: the value never exceeds the last
rate when rates are non-decreasing. -/
theorem interpolate_rate_aux_ub :
    ∀ (ks : List CurveKnot) (prev : CurveKnot) (t : ℚ), prev.t < t →
      List.Pairwise (fun a b : CurveKnot => a.t < b.t ∧ a.rate ≤ b.rate) (prev :: ks) →
      interpolate_rate_aux prev ks t ≤ (ks.getLastD prev).rate := by
  intro ks
  induction ks with
  | nil => intro prev t _ _; rw [List.getLastD_nil]; exact le_refl _
  | cons k rest ih =>
    intro prev t ht hp
    have hp1 := List.pairwise_cons.mp hp
    have hhead := hp1.1 k (List.mem_cons_self k rest)
    rw [List.getLastD_cons]
    by_cases hle : t ≤ k.t
    · simp only [interpolate_rate_aux, if_pos hle]
      have halpha : (t - prev.t) / (k.t - prev.t) ≤ 1 := by
        rw [div_le_one (by linarith [hhead.1])]
        linarith
      have hx : (t - prev.t) / (k.t - prev.t) * (k.rate - prev.rate) ≤ k.rate - prev.rate :=
        mul_le_of_le_one_left (by linarith [hhead.2]) halpha
      have hlast : k.rate ≤ (rest.getLastD k).rate := head_rate_le_getLastD rest k hp1.2
      linarith
    · simp only [interpolate_rate_aux, if_neg hle]
      exact ih k t (not_le.mp hle) hp1.2

/-- Monotonicity of the interpolation loop in t for time-sorted,
rate-monotone knots. -/
theorem interpolate_rate_aux_mono :
    ∀ (ks : List CurveKnot) (prev : CurveKnot) (t t' : ℚ), prev.t < t → t ≤ t' →
      List.Pairwise (fun a b : CurveKnot => a.t < b.t ∧ a.rate ≤ b.rate) (prev :: ks) →
      interpolate_rate_aux prev ks t ≤ interpolate_rate_aux prev ks t' := by
  intro ks
  induction ks with
  | nil => intro prev t t' _ _ _; exact le_refl _
  | cons k rest ih =>
    intro prev t t' ht htt hp
    have hp1 := List.pairwise_cons.mp hp
    have hhead := hp1.1 k (List.mem_cons_self k rest)
    by_cases h2 : t' ≤ k.t
    · have h1 : t ≤ k.t := le_trans htt h2
      simp only [interpolate_rate_aux, if_pos h1, if_pos h2]
      have hstep : (t - prev.t) / (k.t - prev.t) ≤ (t' - prev.t) / (k.t - prev.t) := by
        gcongr
        linarith [hhead.1]
      have := mul_le_mul_of_nonneg_right hstep (by linarith [hhead.2] :
        (0 : ℚ) ≤ k.rate - prev.rate)
      linarith
    · by_cases h1 : t ≤ k.t
      · simp only [interpolate_rate_aux, if_pos h1, if_neg h2]
        have halpha : (t - prev.t) / (k.t - prev.t) ≤ 1 := by
          rw [div_le_one (by linarith [hhead.1])]
          linarith
        have hx : (t - prev.t) / (k.t - prev.t) * (k.rate - prev.rate) ≤ k.rate - prev.rate :=
          mul_le_of_le_one_left (by linarith [hhead.2]) halpha
        have hlb : k.rate ≤ interpolate_rate_aux k rest t' :=
          interpolate_rate_aux_lb rest k t' (not_le.mp h2) hp1.2
        linarith
      · simp only [interpolate_rate_aux, if_neg h1, if_neg h2]
        exact ih k t t' (not_le.mp h1) htt hp1.2

/-- Monotonicity of interpolate_rate in t for time-sorted, rate-monotone
knots. -/
theorem interpolate_rate_mono (c : SofrCurve)
    (hs : List.Pairwise (fun a b : CurveKnot => a.t < b.t ∧ a.rate ≤ b.rate) c.knots)
    (t t' : ℚ) (htt : t ≤ t') : interpolate_rate c t ≤ interpolate_rate c t' := by
  obtain ⟨knots, dc⟩ := c
  dsimp only at hs
  unfold interpolate_rate
  dsimp only
  cases knots with
  | nil => exact le_refl 0
  | cons k0 ks =>
    dsimp only
    by_cases a1 : t ≤ k0.t
    · rw [if_pos a1]
      by_cases b1 : t' ≤ k0.t
      · rw [if_pos b1]
      · rw [if_neg b1]
        by_cases b2 : (ks.getLastD k0).t ≤ t'
        · rw [if_pos b2]
          exact head_rate_le_getLastD ks k0 hs
        · rw [if_neg b2]
          exact interpolate_rate_aux_lb ks k0 t' (not_le.mp b1) hs
    · have hk0t : k0.t < t := not_le.mp a1
      have hk0t' : k0.t < t' := lt_of_lt_of_le hk0t htt
      rw [if_neg a1, if_neg (not_le.mpr hk0t')]
      by_cases a2 : (ks.getLastD k0).t ≤ t
      · rw [if_pos a2, if_pos (le_trans a2 htt)]
      · rw [if_neg a2]
        by_cases b2 : (ks.getLastD k0).t ≤ t'
        · rw [if_pos b2]
          exact interpolate_rate_aux_ub ks k0 t hk0t hs
        · rw [if_neg b2]
          exact interpolate_rate_aux_mono ks k0 t t' hk0t htt hs

/-- Non-negativity of interpolate_rate for non-negative knot rates on a
time-sorted, rate-monotone curve. -/
theorem interpolate_rate_nonneg (c : SofrCurve)
    (hs : List.Pairwise (fun a b : CurveKnot => a.t < b.t ∧ a.rate ≤ b.rate) c.knots)
    (hr : ∀ k ∈ c.knots, 0 ≤ k.rate) (t : ℚ) : 0 ≤ interpolate_rate c t := by
  obtain ⟨knots, dc⟩ := c
  dsimp only at hs hr
  unfold interpolate_rate
  dsimp only
  cases knots with
  | nil => exact le_refl 0
  | cons k0 ks =>
    dsimp only
    by_cases a1 : t ≤ k0.t
    · rw [if_pos a1]
      exact hr k0 (List.mem_cons_self k0 ks)
    · rw [if_neg a1]
      by_cases a2 : (ks.getLastD k0).t ≤ t
      · rw [if_pos a2]
        exact hr _ (getLastD_mem_cons ks k0)
      · rw [if_neg a2]
        exact le_trans (hr k0 (List.mem_cons_self k0 ks))
          (interpolate_rate_aux_lb ks k0 t (not_le.mp a1) hs)

/-- C5 (amended): the discount factor is exactly 1 for every t at or below
0 on every curve; and on every curve whose knots are strictly sorted in
time with non-negative, non-decreasing rates, the discount factor is
non-increasing in t. (The claim's hypothesis - non-negative rates alone -
is not sufficient: with decreasing rates r(t) * t can decrease, see the
counterexample.) -/
theorem C5_discount_factor_properties :
    (∀ (c : SofrCurve) (t : ℚ), t ≤ 0 → discount_factor c t = 1) ∧
    (∀ c : SofrCurve,
        List.Pairwise (fun a b : CurveKnot => a.t < b.t ∧ a.rate ≤ b.rate) c.knots →
        (∀ k ∈ c.knots, 0 ≤ k.rate) →
        ∀ t1 t2 : ℚ, t1 ≤ t2 → discount_factor c t2 ≤ discount_factor c t1) := by
  constructor
  · intro c t ht
    unfold discount_factor
    rw [if_pos ht]
  · intro c hs hr t1 t2 h12
    by_cases h2 : t2 ≤ 0
    · unfold discount_factor
      rw [if_pos h2, if_pos (le_trans h12 h2)]
    · have ht2 : 0 < t2 := not_le.mp h2
      have hr2 : 0 ≤ interpolate_rate c t2 := interpolate_rate_nonneg c hs hr t2
      have hden2 : (0 : ℚ) < 1 + interpolate_rate c t2 * t2 := by
        have := mul_nonneg hr2 (le_of_lt ht2)
        linarith
      unfold discount_factor
      rw [if_neg h2]
      by_cases h1 : t1 ≤ 0
      · rw [if_pos h1]
        rw [div_le_one hden2]
        have := mul_nonneg hr2 (le_of_lt ht2)
        linarith
      · rw [if_neg h1]
        have ht1 : 0 < t1 := not_le.mp h1
        have hr1 : 0 ≤ interpolate_rate c t1 := interpolate_rate_nonneg c hs hr t1
        have hmono : interpolate_rate c t1 ≤ interpolate_rate c t2 :=
          interpolate_rate_mono c hs t1 t2 h12
        have hprod : interpolate_rate c t1 * t1 ≤ interpolate_rate c t2 * t2 := by
          calc interpolate_rate c t1 * t1 ≤ interpolate_rate c t2 * t1 :=
                mul_le_mul_of_nonneg_right hmono (le_of_lt ht1)
            _ ≤ interpolate_rate c t2 * t2 := mul_le_mul_of_nonneg_left h12 hr2
        have hden1 : (0 : ℚ) < 1 + interpolate_rate c t1 * t1 := by
          have := mul_nonneg hr1 (le_of_lt ht1)
          linarith
        exact one_div_le_one_div_of_le hden1 (by linarith)

/-- Witness for C5: the zero case on the empty curve and the monotone case
on the increasing-rate two-knot curve. -/
theorem C5_discount_factor_properties_witness :
    ((-1 : ℚ) ≤ 0 ∧ discount_factor curve0 (-1) = 1) ∧
    (List.Pairwise (fun a b : CurveKnot => a.t < b.t ∧ a.rate ≤ b.rate) curveInc.knots ∧
      (∀ k ∈ curveInc.knots, 0 ≤ k.rate) ∧ (0 : ℚ) ≤ 1 ∧
      discount_factor curveInc 1 ≤ discount_factor curveInc 0) := by
  have hs : List.Pairwise (fun a b : CurveKnot => a.t < b.t ∧ a.rate ≤ b.rate)
      curveInc.knots := by
    refine List.Pairwise.cons ?_ (List.pairwise_singleton _ _)
    intro k hk
    rw [List.mem_singleton] at hk
    subst hk
    norm_num
  have hr : ∀ k ∈ curveInc.knots, 0 ≤ k.rate := by
    intro k hk
    rcases List.mem_cons.mp hk with h | h
    · subst h; norm_num
    · rw [List.mem_singleton] at h
      subst h
      norm_num
  exact ⟨⟨by norm_num, C5_discount_factor_properties.1 curve0 (-1) (by norm_num)⟩,
    hs, hr, by norm_num,
    C5_discount_factor_properties.2 curveInc hs hr 0 1 (by norm_num)⟩

/-- Counterexample for C5 as stated: the curve with knots (1, 1) and (2, 0)
has only non-negative rates, yet its discount factor increases from 1/2 at
t = 1 back to 1 at t = 2, because the interpolated rate falls to 0. -/
theorem C5_decreasing_rate_counterexample :
    (∀ k ∈ curveDec.knots, 0 ≤ k.rate) ∧ (1 : ℚ) ≤ 2 ∧
    ¬ (discount_factor curveDec 2 ≤ discount_factor curveDec 1) := by
  refine ⟨?_, by norm_num, ?_⟩
  · intro k hk
    rcases List.mem_cons.mp hk with h | h
    · subst h; norm_num
    · rw [List.mem_singleton] at h
      subst h
      norm_num
  · have h1 : discount_factor curveDec 1 = 1 / 2 := by
      norm_num [discount_factor, interpolate_rate, curveDec]
    have h2 : discount_factor curveDec 2 = 1 := by
      norm_num [discount_factor, interpolate_rate, curveDec,
        List.getLastD_cons, List.getLastD_nil]
    rw [h1, h2]
    norm_num
